import Mathlib

/-!
Verification development for the legacy-renderer introspection engine
(`src/backend/legacy/renderer.js` and `src/backend/legacy/utils.js`).

The engine attaches to an externally-owned host tree ("internal instances"),
assigns stable integer ids to host nodes, records mount/unmount events as
binary operations in a pending buffer, and flushes the buffer (with a batch
header) to a transport hook.

Host internal instances are opaque, identity-compared handles; we model them
as natural numbers (`Inst`) together with a `Host` record of the fields the
engine reads (`_hostParent`, children, `_currentElement`, `_stringText`).
JavaScript `Map`s keyed by object identity become association lists keyed by
`Option Inst` (the engine may call `getID` on `undefined`, e.g. for
`internalInstance._hostParent` of a root, which a JS `Map` happily stores as
a key; `none` models that `undefined` key). `Uint32Array` words become `Nat`
with an explicit `% 2^32` truncation at every store.
-/

/-- Host internal instances are opaque identity-compared handles. -/
abbrev Inst := Nat

/-- JavaScript reference possibly `undefined`/`null`: `Map` keys the engine
uses are either a real internal instance or `undefined`. -/
abbrev JsRef := Option Inst

/-- Modelled from the spec: `TREE_OPERATION_ADD` from `src/constants` (the
constants module is not part of the analysed sources; the operation opcodes
are distinct small integers, and no claim depends on their numeric value). -/
def TREE_OPERATION_ADD : Nat := 1

/-- Modelled from the spec: `TREE_OPERATION_REMOVE` from `src/constants`. -/
def TREE_OPERATION_REMOVE : Nat := 2

/-- Modelled from the spec: `ElementTypeClass` from `src/devtools/types`
(the "class-like component" classification tag). -/
def ElementTypeClass : Nat := 1

/-- Modelled from the spec: `ElementTypeOtherOrUnknown` from
`src/devtools/types` (the "other/unknown" classification tag). -/
def ElementTypeOtherOrUnknown : Nat := 9

/-- Modelled from the spec: `ElementTypeRoot` from `src/devtools/types`. -/
def ElementTypeRoot : Nat := 10

/-- Truncation performed by storing a number into a `Uint32Array` slot. -/
def w32 (n : Nat) : Nat := n % 4294967296

/-- Shape of `_currentElement.type` as seen through JavaScript `typeof`:
a string tag, a function (class-like; carrying its display name, already
UTF-8 encoded), or anything else.  `getDisplayName` and `utfEncodeString`
live in `src/utils` (not among the analysed sources), so display names are
modelled from the spec directly as their UTF-8 byte sequences. -/
inductive JsElemType where
  | strType : JsElemType
  | funcType (name : Option (List Nat)) : JsElemType
  | otherType (name : Option (List Nat)) : JsElemType
deriving DecidableEq

/-- Fields of `internalInstance._currentElement` read by the engine.
`key` is `none` when `_currentElement.key` is falsy, otherwise the UTF-8
bytes of `String(key)`. `owner` is `_currentElement._owner`. -/
structure JsElement where
  key : Option (List Nat)
  typ : JsElemType
  owner : Option Inst
deriving DecidableEq

/-- The host tree as the engine reads it: `_hostParent`, `getChildren`
(child enumeration, modelled from the spec's child-enumeration interface;
`src/backend/legacy/getChildren.js` is not among the analysed sources),
`_currentElement` (possibly `null`/`undefined`), and whether
`_stringText` is a string. -/
structure Host where
  hostParent : Inst → Option Inst
  children : Inst → List Inst
  currentElement : Inst → Option JsElement
  stringTextIsString : Inst → Bool

/-- Result record of `getData` (renderer.js lines 280-312). -/
structure FiberData where
  displayName : Option (List Nat)
  key : Option (List Nat)
  type : Nat
deriving DecidableEq

/-- Shallow embedding of `getData` (renderer.js lines 280-312): classify an
internal instance from the `typeof` of `_currentElement.type`. -/
def getData (host : Host) (inst : Inst) : FiberData :=
  match host.currentElement inst with
  | none => ⟨none, none, ElementTypeOtherOrUnknown⟩
  | some el =>
    match el.typ with
    | .strType => ⟨none, el.key, ElementTypeOtherOrUnknown⟩
    | .funcType nm => ⟨nm, el.key, ElementTypeClass⟩
    | .otherType nm =>
      if host.stringTextIsString inst then ⟨none, el.key, ElementTypeOtherOrUnknown⟩
      else ⟨nm, el.key, ElementTypeOtherOrUnknown⟩

/-- Association-list model of `Map.prototype.get` (first matching key). -/
def mapGet {κ ν : Type} [DecidableEq κ] : List (κ × ν) → κ → Option ν
  | [], _ => none
  | (k, v) :: rest, a => if a = k then some v else mapGet rest a

/-- Association-list model of `Map.prototype.delete`: removes every entry
with the key (a JS `Map` holds at most one). -/
def mapDelete {κ ν : Type} [DecidableEq κ] : List (κ × ν) → κ → List (κ × ν)
  | [], _ => []
  | (k, v) :: rest, a => if a = k then mapDelete rest a else (k, v) :: mapDelete rest a

/-- Mutable state owned by one `attach` call (renderer.js lines 48-51,
190, 215): the two id registry maps, the root id set, the pending operation
buffer, and the deferred-flush timer map.  `pendingOperations` keeps each
appended `Uint32Array` as its own word block; the wire buffer built by the
repeated `Uint32Array` concatenation in `addOperation` is the flattening
(`join`) of these blocks.  `nextUID` models the `getUID` counter from
`src/utils` (not among the analysed sources; modelled from the spec:
process-lifetime-unique positive integers handed out in order).
`nextTimeoutID` models the host environment's `setTimeout` handle counter. -/
structure AttachState where
  internalInstanceToIDMap : List (JsRef × Nat)
  idToInternalInstanceMap : List (Nat × JsRef)
  rootIDSet : List Nat
  pendingOperations : List (List Nat)
  nextUID : Nat
  rootIDToTimeoutIDMap : List (Nat × Nat)
  nextTimeoutID : Nat

/-- State at the end of `attach` before any host activity. -/
def initialState : AttachState :=
  { internalInstanceToIDMap := []
    idToInternalInstanceMap := []
    rootIDSet := []
    pendingOperations := []
    nextUID := 1
    rootIDToTimeoutIDMap := []
    nextTimeoutID := 0 }

/-- Shallow embedding of `getID` (renderer.js lines 53-60): memoised id
lookup; on the first call for a key, allocate `getUID()` and record both
directions. -/
def getID (s : AttachState) (inst : JsRef) : Nat × AttachState :=
  match mapGet s.internalInstanceToIDMap inst with
  | some id => (id, s)
  | none =>
    let id := s.nextUID
    (id, { s with
            nextUID := s.nextUID + 1
            internalInstanceToIDMap := (inst, id) :: s.internalInstanceToIDMap
            idToInternalInstanceMap := (id, inst) :: s.idToInternalInstanceMap })

/-- Shallow embedding of `addOperation` (renderer.js lines 192-205):
concatenate the new `Uint32Array` before or after the pending buffer. -/
def addOperation (s : AttachState) (newAction : List Nat)
    (addToStartOfQueue : Bool := false) : AttachState :=
  if addToStartOfQueue then
    { s with pendingOperations := newAction :: s.pendingOperations }
  else
    { s with pendingOperations := s.pendingOperations ++ [newAction] }

/-- Storing a plain JavaScript object into a `Uint32Array` slot: `ToNumber`
of a plain object is `NaN`, and `Uint32Array` stores `NaN` as `0`. -/
def jsObjectAsUint32 (_ : Inst) : Nat := 0

/-- The word the code computes for `operation[4]` of an Add-Node
(renderer.js lines 356-360 and 390): `_currentElement._owner` when the
element and owner are non-null (a plain object, stored as `0` by the typed
array), else the number `0`. -/
def ownerIdWord (host : Host) (inst : Inst) : Nat :=
  match host.currentElement inst with
  | some el =>
    match el.owner with
    | some o => jsObjectAsUint32 o
    | none => 0
  | none => 0

/-- Word sequence built for a non-root Add-Node operation (renderer.js
lines 365-399): `[ADD, id, type, parentID, ownerID, nameLen, nameBytes…,
keyLen, keyBytes…]`, each word truncated by the `Uint32Array` store.
An absent (`null`) display name or key contributes length `0` and no
bytes, exactly like a present empty byte sequence. -/
def encodeAddNode (id typ parentID ownerID : Nat)
    (displayName key : Option (List Nat)) : List Nat :=
  [w32 TREE_OPERATION_ADD, w32 id, w32 typ, w32 parentID, w32 ownerID,
      w32 (displayName.getD []).length]
    ++ (displayName.getD []).map w32
    ++ [w32 (key.getD []).length]
    ++ (key.getD []).map w32

/-- Word sequence built for a root Add operation (renderer.js lines
346-352): `[ADD, id, ElementTypeRoot, isProfilingSupported, hasOwnerMetadata]`. -/
def encodeAddRoot (id : Nat) (hasOwnerMetadata : Bool) : List Nat :=
  [w32 TREE_OPERATION_ADD, w32 id, w32 ElementTypeRoot, 0,
    if hasOwnerMetadata then 1 else 0]

/-- Word sequence built for a Remove operation (renderer.js lines 409-411
and 416-418): `[REMOVE, id]`. -/
def encodeRemove (id : Nat) : List Nat :=
  [w32 TREE_OPERATION_REMOVE, w32 id]

/-- Modelled from the spec: the remote side's decoder for an Add-Node
operation (spec section 4.2; decoding is the remote consumer's
responsibility and has no source among the analysed files).  Reads the
opcode word, the four fixed words, then the two length-prefixed byte
sequences, with a zero length meaning an absent string; rejects the
sequence if the opcode is wrong or the lengths do not consume it exactly. -/
def decodeAddNode (ws : List Nat) :
    Option (Nat × Nat × Nat × Nat × Option (List Nat) × Option (List Nat)) :=
  match ws with
  | op :: id :: typ :: pid :: oid :: nlen :: rest =>
    if op = TREE_OPERATION_ADD then
      if nlen ≤ rest.length then
        match rest.drop nlen with
        | klen :: rest2 =>
          if rest2.length = klen then
            some (id, typ, pid, oid,
              (if nlen = 0 then none else some (rest.take nlen)),
              (if klen = 0 then none else some rest2))
          else none
        | [] => none
      else none
    else none
  | _ => none

/-- Identifies a zero-length byte sequence with an absent one, the way the
wire format does (an explicit byte length of `0` encodes "absent"). -/
def normBytes : Option (List Nat) → Option (List Nat)
  | none => none
  | some [] => none
  | some bs => some bs

/-- Shallow embedding of `shouldFilterNode` (renderer.js lines 427-429). -/
def shouldFilterNode (_host : Host) (_inst : Inst) : Bool := false

/-- Registers ids for a list of instances in order, keeping the last
state: the effect of `getChildren(internalInstance).map(getID)`. -/
def foldGetIDs (s : AttachState) (cs : List Inst) : AttachState :=
  cs.foldl (fun st c => (getID st (some c)).2) s

/-- Registry side effects of the debug `console.log` on renderer.js line
335: its arguments evaluate `getID(internalInstance._hostParent)` and
`getChildren(internalInstance).map(getID)` before anything is printed. -/
def recordMountLogState (host : Host) (s : AttachState) (inst : Inst) : AttachState :=
  foldGetIDs (getID s (host.hostParent inst)).2 (host.children inst)

/-- The `hasOwnerMetadata` test of renderer.js lines 342-344:
`_currentElement != null && _currentElement._owner != null`. -/
def hasOwnerMetadata (host : Host) (inst : Inst) : Bool :=
  match host.currentElement inst with
  | some el => el.owner.isSome
  | none => false

/-- Shallow embedding of `recordMount` (renderer.js lines 330-401).
The debug `console.log` on line 335 is not pure: its arguments register
ids for the host parent and children as a side effect
(`recordMountLogState`).  A root id emits the five-word Add-Root block, a
non-root id the variable-length Add-Node block with
`parentID = getID(internalInstance._hostParent)`; both are added to the
start of the queue. -/
def recordMount (host : Host) (s : AttachState) (inst : Inst) : AttachState :=
  let r1 := getID s (some inst)
  let isRoot := r1.2.rootIDSet.contains r1.1
  let s3 := recordMountLogState host r1.2 inst
  if isRoot then
    addOperation s3 (encodeAddRoot r1.1 (hasOwnerMetadata host inst)) true
  else
    let d := getData host inst
    let r2 := getID s3 (host.hostParent inst)
    addOperation r2.2
      (encodeAddNode r1.1 d.type r2.1 (ownerIdWord host inst) d.displayName d.key) true

/-- Shallow embedding of `recordUnmount` (renderer.js lines 403-425).
The debug `console.log` on line 406 evaluates
`getID(internalInstance._hostParent)` as a side effect.  For a root id the
code appends the Remove block and then executes `isRoot.delete(id)` —
but `isRoot` is the boolean returned by `rootIDSet.has(id)`, and a boolean
has no `delete` method, so this line throws a `TypeError`; the error value
carries the state as mutated before the throw (JavaScript exceptions do
not roll back earlier mutations).  For a non-root, unfiltered id the
Remove block is appended and both registry maps drop the node. -/
def recordUnmount (host : Host) (s : AttachState) (inst : Inst) :
    Except (String × AttachState) AttachState :=
  let r1 := getID s (some inst)
  let id := r1.1
  let s1 := r1.2
  let isRoot := s1.rootIDSet.contains id
  let s2 := (getID s1 (host.hostParent inst)).2
  if isRoot then
    let s3 := addOperation s2 (encodeRemove id)
    Except.error ("TypeError: isRoot.delete is not a function", s3)
  else
    let s3 :=
      if ¬ shouldFilterNode host inst then addOperation s2 (encodeRemove id)
      else s2
    Except.ok { s3 with
      idToInternalInstanceMap := mapDelete s3.idToInternalInstanceMap id
      internalInstanceToIDMap := mapDelete s3.internalInstanceToIDMap (some inst) }

/-- Shallow embedding of `flushPendingEvents` (renderer.js lines 262-278):
prepend the two-word batch header `[rendererID, getID(root)]`, emit the
concatenated pending buffer through `hook.emit('operations', …)` (returned
here as the flat word list), and reset the pending buffer to empty. -/
def flushPendingEvents (rendererID : Nat) (s : AttachState) (root : Inst) :
    AttachState × List Nat :=
  let r1 := getID s (some root)
  let s1 := addOperation r1.2 [w32 rendererID, w32 r1.1] true
  let emitted := s1.pendingOperations.flatten
  ({ s1 with pendingOperations := [] }, emitted)

/-- Shallow embedding of `queueFlushPendingEvents` (renderer.js lines
215-227): if no timeout is pending for the root's id, schedule one
(recorded in `rootIDToTimeoutIDMap`); otherwise do nothing. -/
def queueFlushPendingEvents (s : AttachState) (root : Inst) : AttachState :=
  let r1 := getID s (some root)
  let id := r1.1
  let s1 := r1.2
  match mapGet s1.rootIDToTimeoutIDMap id with
  | some _ => s1
  | none =>
    { s1 with
      rootIDToTimeoutIDMap := (id, s1.nextTimeoutID) :: s1.rootIDToTimeoutIDMap
      nextTimeoutID := s1.nextTimeoutID + 1 }

/-- The `setTimeout` callback scheduled by `queueFlushPendingEvents`
(renderer.js lines 221-224): delete the timer entry for the root's id,
then flush. -/
def fireTimeout (rendererID : Nat) (s : AttachState) (root : Inst) :
    AttachState × List Nat :=
  let r1 := getID s (some root)
  let s1 := { r1.2 with rootIDToTimeoutIDMap := mapDelete r1.2.rootIDToTimeoutIDMap r1.1 }
  flushPendingEvents rendererID s1 root

/-- Number of pending deferred-flush timers for a given root id. -/
def timerCount (s : AttachState) (id : Nat) : Nat :=
  s.rootIDToTimeoutIDMap.countP (fun p => decide (p.1 = id))

/-- Convenience: the id `getID` yields for an instance in a state. -/
def mountId (s : AttachState) (inst : Inst) : Nat := (getID s (some inst)).1

/-!
Model of the JavaScript values manipulated by the state-mutation interface
(`setIn`, `setInState`, `setInContext`, renderer.js lines 443-465).
Objects are ordered field lists (JS insertion order); an assignment to an
existing key replaces its value in place, an assignment to a fresh key
appends it.
-/

mutual
inductive JsValue where
  | vundefined : JsValue
  | vnull : JsValue
  | vbool (b : Bool) : JsValue
  | vnum (n : Int) : JsValue
  | vstr (s : String) : JsValue
  | vobj (fields : JsFields) : JsValue
  deriving DecidableEq
inductive JsFields where
  | fnil : JsFields
  | fcons (k : String) (v : JsValue) (rest : JsFields) : JsFields
  deriving DecidableEq
end

/-- Property read `fields[k]`: first matching key, else absent. -/
def JsFields.get : JsFields → String → Option JsValue
  | .fnil, _ => none
  | .fcons k' v rest, k => if k = k' then some v else rest.get k

/-- Property write `fields[k] = v`: replace an existing key in place,
append a fresh key at the end (JS insertion order). -/
def JsFields.set : JsFields → String → JsValue → JsFields
  | .fnil, k, v => .fcons k v .fnil
  | .fcons k' v' rest, k, v =>
    if k' = k then .fcons k v rest else .fcons k' v' (rest.set k v)

/-- Whether an object value owns a property with the given key. -/
def hasProp (o : JsValue) (k : String) : Bool :=
  match o with
  | .vobj fs => (fs.get k).isSome
  | _ => false

/-- JavaScript truthiness of a value. -/
def truthy : JsValue → Bool
  | .vundefined => false
  | .vnull => false
  | .vbool b => b
  | .vnum n => decide (n ≠ 0)
  | .vstr s => decide (s ≠ "")
  | .vobj _ => true

/-- The key `path.pop()` hands to the final property write of `setIn`:
the last path element, or — when the path is empty — the JavaScript
`undefined` returned by popping an empty array, which the property write
`parent[last] = value` coerces to the string key `"undefined"`. -/
def popLastKey (path : List String) : String :=
  match path.getLast? with
  | some k => k
  | none => "undefined"

/-- The traversal-and-write core of `setIn` (renderer.js lines 459-465):
walk from the container along the already-popped path exactly like
`path.reduce((obj_, attr) => (obj_ ? obj_[attr] : null), obj)`, then, if
the reached parent is truthy, perform `parent[last] = value`.  Reading a
property of a falsy intermediate yields `null` (so the write is skipped);
reading a missing or primitive-held property walks on into `undefined`
without any way to mutate the original container; writing a property on a
truthy primitive throws a `TypeError` (the module is compiled in strict
mode).  Returns the container as mutated. -/
def setInWalk (o : JsValue) (pre : List String) (last : String) (v : JsValue) :
    Except String JsValue :=
  match pre with
  | [] =>
    if truthy o then
      match o with
      | .vobj fs => .ok (.vobj (fs.set last v))
      | _ => .error "TypeError: cannot create property on a primitive"
    else .ok o
  | a :: rest =>
    if truthy o then
      match o with
      | .vobj fs =>
        match fs.get a with
        | some child =>
          match setInWalk child rest last v with
          | .ok child2 => .ok (.vobj (fs.set a child2))
          | .error e => .error e
        | none =>
          match setInWalk .vundefined rest last v with
          | .ok _ => .ok o
          | .error e => .error e
      | _ =>
        match setInWalk .vundefined rest last v with
        | .ok _ => .ok o
        | .error e => .error e
    else .ok o

/-- Shallow embedding of `setIn` (renderer.js lines 459-465).
`var last = path.pop()` removes the final path element from the caller's
array before anything else happens, so both the success and the error
outcome carry the remaining (shortened) path array alongside the
container. -/
def setIn (o : JsValue) (path : List String) (v : JsValue) :
    Except (String × List String) (JsValue × List String) :=
  let last := popLastKey path
  let rest := path.dropLast
  match setInWalk o rest last v with
  | .ok o2 => .ok (o2, rest)
  | .error e => .error (e, rest)

/-- The caller's `path` array as left behind by a `setIn`-based operation
(shortened by the pop even when the write threw). -/
def resultPath {ε α : Type} :
    Except (ε × List String) (α × List String) → List String
  | .ok (_, p) => p
  | .error (_, p) => p

/-- Host-owned mutable per-instance data reached through the registry:
`internalInstance.state`, `internalInstance.context`, and the record of
`forceUpdate` calls the engine has triggered. -/
structure InstEnv where
  stateOf : Inst → JsValue
  contextOf : Inst → JsValue
  forced : List Inst

/-- Shallow embedding of `setInState` (renderer.js lines 443-449): resolve
the instance from `idToInternalInstanceMap`; when present, `setIn` into its
`state` and call `forceUpdate`; when absent (or the registered reference is
the `undefined` key), do nothing at all. -/
def setInState (s : AttachState) (env : InstEnv) (id : Nat)
    (path : List String) (v : JsValue) :
    Except (String × List String) (InstEnv × List String) :=
  match mapGet s.idToInternalInstanceMap id with
  | some (some inst) =>
    match setIn (env.stateOf inst) path v with
    | .ok (o2, p2) =>
      .ok ({ env with
              stateOf := fun j => if j = inst then o2 else env.stateOf j
              forced := inst :: env.forced }, p2)
    | .error e => .error e
  | _ => .ok (env, path)

/-- Shallow embedding of `setInContext` (renderer.js lines 451-457):
same as `setInState` but through `internalInstance.context` and the
`forceUpdate` helper from `legacy/utils.js`. -/
def setInContext (s : AttachState) (env : InstEnv) (id : Nat)
    (path : List String) (v : JsValue) :
    Except (String × List String) (InstEnv × List String) :=
  match mapGet s.idToInternalInstanceMap id with
  | some (some inst) =>
    match setIn (env.contextOf inst) path v with
    | .ok (o2, p2) =>
      .ok ({ env with
              contextOf := fun j => if j = inst then o2 else env.contextOf j
              forced := inst :: env.forced }, p2)
    | .error e => .error e
  | _ => .ok (env, path)

/-!
Model of the interception layer and its teardown (`attach` lines 107-188 of
renderer.js together with `decorateResult`, `decorate`, `decorateMany`,
`restoreMany` from `legacy/utils.js`).  Host entry points are opaque
function values of a type `α`; wrapping replaces an entry point `f` by
`wrap f` after saving `f`.
-/

/-- The four reconciler entry points wrapped by `decorateMany`
(renderer.js lines 148-169); doubles as the shape of `Component.Mixin`. -/
structure ReconcilerObj (α : Type) where
  mountComponent : α
  performUpdateIfNecessary : α
  receiveComponent : α
  unmountComponent : α
deriving DecidableEq

/-- The root-render entry points probed on `renderer.Mount`
(renderer.js lines 112 and 130); absent fields are `undefined`. -/
structure MountObj (α : Type) where
  renderNewRootComponent : Option α
  renderComponent : Option α
deriving DecidableEq

/-- The host renderer object as the interception layer sees it. -/
structure RendererObj (α : Type) where
  Mount : MountObj α
  Reconciler : Option (ReconcilerObj α)
  Component : Option (ReconcilerObj α)
deriving DecidableEq

/-- The `oldReconcilerMethods` / `oldRenderRoot` / `oldRenderComponent`
variables of `attach` (renderer.js lines 107-109). -/
structure SavedEntryPoints (α : Type) where
  oldReconcilerMethods : Option (ReconcilerObj α)
  oldRenderRoot : Option α
  oldRenderComponent : Option α
deriving DecidableEq

/-- `decorateMany` over the four reconciler methods: each becomes a fresh
wrapper closing over the old function; `olds` collects the originals. -/
def decorateReconciler {α : Type} (wrap : α → α) (rec : ReconcilerObj α) :
    ReconcilerObj α :=
  ⟨wrap rec.mountComponent, wrap rec.performUpdateIfNecessary,
    wrap rec.receiveComponent, wrap rec.unmountComponent⟩

/-- The wrapping phase of `attach` (renderer.js lines 111-169): decorate
`Mount._renderNewRootComponent` (or else `Mount.renderComponent`) via
`decorateResult`, and decorate the four `Reconciler` methods via
`decorateMany`, saving every original. -/
def attachWraps {α : Type} (wrap : α → α) (r : RendererObj α) :
    RendererObj α × SavedEntryPoints α :=
  let (mount1, oldRoot, oldRender) :=
    match r.Mount.renderNewRootComponent with
    | some f => ({ r.Mount with renderNewRootComponent := some (wrap f) }, some f, none)
    | none =>
      match r.Mount.renderComponent with
      | some g => ({ r.Mount with renderComponent := some (wrap g) }, none, some g)
      | none => (r.Mount, none, none)
  let (rec1, oldRec) :=
    match r.Reconciler with
    | some rec => (some (decorateReconciler wrap rec), some rec)
    | none => (r.Reconciler, none)
  ({ r with Mount := mount1, Reconciler := rec1 },
   ⟨oldRec, oldRoot, oldRender⟩)

/-- Shallow embedding of `cleanup` (renderer.js lines 171-188).
`restoreMany(source, olds)` writes every saved method back onto `source`;
the source is `renderer.Component.Mixin` when `renderer.Component` exists
and `renderer.Reconciler` otherwise.  Restoring onto an absent
(`undefined`) source would throw, which the `Except` captures.  Finally
all three saved-entry-point variables are nulled. -/
def cleanup {α : Type} (r : RendererObj α) (saved : SavedEntryPoints α) :
    Except String (RendererObj α × SavedEntryPoints α) :=
  let step1 : Except String (RendererObj α) :=
    match saved.oldReconcilerMethods with
    | some olds =>
      match r.Component with
      | some _ => .ok { r with Component := some olds }
      | none =>
        match r.Reconciler with
        | some _ => .ok { r with Reconciler := some olds }
        | none => .error "TypeError: cannot assign methods of undefined"
    | none => .ok r
  match step1 with
  | .error e => .error e
  | .ok r1 =>
    let r2 :=
      match saved.oldRenderRoot with
      | some f => { r1 with Mount := { r1.Mount with renderNewRootComponent := some f } }
      | none => r1
    let r3 :=
      match saved.oldRenderComponent with
      | some g => { r2 with Mount := { r2.Mount with renderComponent := some g } }
      | none => r2
    .ok (r3, ⟨none, none, none⟩)

/-- Invariant of the identifier registry: every registered id is below the
`getUID` counter, and no two registered keys share an id. -/
def GoodState (s : AttachState) : Prop :=
  (∀ k i, mapGet s.internalInstanceToIDMap k = some i → i < s.nextUID) ∧
  (∀ k1 k2 i, mapGet s.internalInstanceToIDMap k1 = some i →
    mapGet s.internalInstanceToIDMap k2 = some i → k1 = k2)

/-- A sequence of `recordMount` notifications arriving between flushes. -/
def runMounts (host : Host) (s : AttachState) (ns : List Inst) : AttachState :=
  ns.foldl (recordMount host) s

/-- The id a state's registry holds for a key (`0` if absent). -/
def finalId (s : AttachState) (k : JsRef) : Nat :=
  (mapGet s.internalInstanceToIDMap k).getD 0

/-- The Add-Node block `recordMount` recorded for an instance, expressed
with the ids as the final state of a mount run knows them. -/
def mountBlockIn (host : Host) (sF : AttachState) (n : Inst) : List Nat :=
  encodeAddNode (finalId sF (some n)) (getData host n).type
    (finalId sF (host.hostParent n)) (ownerIdWord host n)
    (getData host n).displayName (getData host n).key

/-- Word at index 1 of an operation block: the operation's subject id. -/
def opIdWord (b : List Nat) : Nat := b.getD 1 0

/-- Word at index 3 of an Add-Node block: the `parentID` word. -/
def opParentIdWord (b : List Nat) : Nat := b.getD 3 0

/-!
Concrete fixtures used to evaluate the development on explicit inputs.
-/

/-- A small concrete host tree: instance `2` is a root-like node, instance
`0` is a class-like node whose `_hostParent` is `2`, instance `1` is a
class-like node whose `_hostParent` is `0`. -/
def hostA : Host where
  hostParent := fun i => if i = 0 then some 2 else if i = 1 then some 0 else none
  children := fun _ => []
  currentElement := fun i =>
    if i ≤ 1 then some ⟨none, .funcType none, none⟩ else none
  stringTextIsString := fun _ => false

/-- A state in which instance `2` is registered with id `1` and marked as a
root. -/
def rootState : AttachState :=
  { internalInstanceToIDMap := [(some 2, 1)]
    idToInternalInstanceMap := [(1, some 2)]
    rootIDSet := [1]
    pendingOperations := []
    nextUID := 2
    rootIDToTimeoutIDMap := []
    nextTimeoutID := 0 }

/-- A state in which instance `0` is registered with id `1` (and is not a
root). -/
def regState : AttachState :=
  { internalInstanceToIDMap := [(some 0, 1)]
    idToInternalInstanceMap := [(1, some 0)]
    rootIDSet := []
    pendingOperations := []
    nextUID := 2
    rootIDToTimeoutIDMap := []
    nextTimeoutID := 0 }

/-- A concrete instance environment: every instance holds the state object
`{a: 1}` and the context object `{c: 2}`. -/
def envA : InstEnv :=
  { stateOf := fun _ => .vobj (.fcons "a" (.vnum 1) .fnil)
    contextOf := fun _ => .vobj (.fcons "c" (.vnum 2) .fnil)
    forced := [] }

/-- The state object a `setIn`-based operation left behind (`undefined` when
the operation threw). -/
def stateOfResult (r : Except (String × List String) (InstEnv × List String))
    (i : Inst) : JsValue :=
  match r with
  | .ok (env, _) => env.stateOf i
  | .error _ => .vundefined

/-- A concrete host renderer (entry points as numbers, so a wrapper can be
`Nat.succ`) exposing both a `Component` and a `Reconciler`. -/
def rendBoth : RendererObj Nat :=
  { Mount := { renderNewRootComponent := some 10, renderComponent := none }
    Reconciler := some ⟨20, 21, 22, 23⟩
    Component := some ⟨30, 31, 32, 33⟩ }

/-- A concrete host renderer exposing a `Reconciler` but no `Component`
(the shape the wrapped code paths of `attach` actually target). -/
def rendSolo : RendererObj Nat :=
  { Mount := { renderNewRootComponent := some 10, renderComponent := none }
    Reconciler := some ⟨20, 21, 22, 23⟩
    Component := none }

/-- The `Reconciler` left on the renderer after a `cleanup` call (`none`
when the call threw). -/
def cleanedReconciler (r : Except String (RendererObj Nat × SavedEntryPoints Nat)) :
    Option (ReconcilerObj Nat) :=
  match r with
  | .ok (r2, _) => r2.Reconciler
  | .error _ => none

/-!
Registry invariant and basic lemmas.
-/

theorem goodState_initial : GoodState initialState := by
  constructor
  · intro k i h; simp [initialState, mapGet] at h
  · intro k1 k2 i h1 h2; simp [initialState, mapGet] at h1

theorem mapGet_mapDelete_self {κ ν : Type} [DecidableEq κ]
    (m : List (κ × ν)) (a : κ) : mapGet (mapDelete m a) a = none := by
  induction m with
  | nil => simp [mapDelete, mapGet]
  | cons p rest ih =>
    obtain ⟨k, v⟩ := p
    by_cases h : a = k
    · simpa [mapDelete, h] using ih
    · simpa [mapDelete, mapGet, h] using ih

theorem mapGet_mapDelete_other {κ ν : Type} [DecidableEq κ]
    (m : List (κ × ν)) (a b : κ) (hne : b ≠ a) :
    mapGet (mapDelete m a) b = mapGet m b := by
  induction m with
  | nil => simp [mapDelete]
  | cons p rest ih =>
    obtain ⟨k, v⟩ := p
    by_cases h : a = k
    · have hbk : b ≠ k := h ▸ hne
      simpa [mapDelete, mapGet, h, hbk] using ih
    · by_cases hb : b = k
      · simp [mapDelete, mapGet, h, hb]
      · simpa [mapDelete, mapGet, h, hb] using ih

theorem getID_registered {s : AttachState} {k : JsRef} {i : Nat}
    (h : mapGet s.internalInstanceToIDMap k = some i) : getID s k = (i, s) := by
  simp [getID, h]

theorem getID_lookup_self (s : AttachState) (k : JsRef) :
    mapGet (getID s k).2.internalInstanceToIDMap k = some (getID s k).1 := by
  unfold getID
  cases h : mapGet s.internalInstanceToIDMap k with
  | some i => simp [h]
  | none => simp [mapGet]

theorem getID_mono {s : AttachState} {k : JsRef} {i : Nat}
    (h : mapGet s.internalInstanceToIDMap k = some i) (k' : JsRef) :
    mapGet (getID s k').2.internalInstanceToIDMap k = some i := by
  unfold getID
  cases h' : mapGet s.internalInstanceToIDMap k' with
  | some j => simp [h]
  | none =>
    have hne : k ≠ k' := by
      intro he; rw [he, h'] at h; exact Option.noConfusion h
    simpa [mapGet, hne] using h

theorem getID_rootIDSet (s : AttachState) (k : JsRef) :
    (getID s k).2.rootIDSet = s.rootIDSet := by
  unfold getID; cases mapGet s.internalInstanceToIDMap k <;> simp

theorem getID_pending (s : AttachState) (k : JsRef) :
    (getID s k).2.pendingOperations = s.pendingOperations := by
  unfold getID; cases mapGet s.internalInstanceToIDMap k <;> simp

theorem getID_timeoutMap (s : AttachState) (k : JsRef) :
    (getID s k).2.rootIDToTimeoutIDMap = s.rootIDToTimeoutIDMap := by
  unfold getID; cases mapGet s.internalInstanceToIDMap k <;> simp

theorem getID_nextTimeoutID (s : AttachState) (k : JsRef) :
    (getID s k).2.nextTimeoutID = s.nextTimeoutID := by
  unfold getID; cases mapGet s.internalInstanceToIDMap k <;> simp

theorem getID_nextUID_le (s : AttachState) (k : JsRef) :
    s.nextUID ≤ (getID s k).2.nextUID := by
  unfold getID; cases mapGet s.internalInstanceToIDMap k <;> simp

theorem getID_not_registered {s : AttachState} {k : JsRef}
    (h : mapGet s.internalInstanceToIDMap k = none) :
    getID s k = (s.nextUID,
      { s with
          nextUID := s.nextUID + 1
          internalInstanceToIDMap := (k, s.nextUID) :: s.internalInstanceToIDMap
          idToInternalInstanceMap := (s.nextUID, k) :: s.idToInternalInstanceMap }) := by
  simp [getID, h]

theorem getID_good {s : AttachState} (hs : GoodState s) (k : JsRef) :
    GoodState (getID s k).2 := by
  obtain ⟨hbound, hinj⟩ := hs
  cases h : mapGet s.internalInstanceToIDMap k with
  | some i => rw [getID_registered h]; exact ⟨hbound, hinj⟩
  | none =>
    rw [getID_not_registered h]
    constructor
    · intro k' i hk'
      show i < s.nextUID + 1
      simp only [mapGet] at hk'
      by_cases he : k' = k
      · rw [if_pos he] at hk'
        have : s.nextUID = i := Option.some.inj hk'
        omega
      · rw [if_neg he] at hk'
        exact Nat.lt_succ_of_lt (hbound k' i hk')
    · intro k1 k2 i h1 h2
      simp only [mapGet] at h1 h2
      by_cases he1 : k1 = k <;> by_cases he2 : k2 = k
      · rw [he1, he2]
      · rw [if_pos he1] at h1
        rw [if_neg he2] at h2
        have hb := hbound k2 i h2
        have : s.nextUID = i := Option.some.inj h1
        omega
      · rw [if_neg he1] at h1
        rw [if_pos he2] at h2
        have hb := hbound k1 i h1
        have : s.nextUID = i := Option.some.inj h2
        omega
      · rw [if_neg he1] at h1
        rw [if_neg he2] at h2
        exact hinj k1 k2 i h1 h2

theorem getID_fresh {s : AttachState} (hs : GoodState s) {k : JsRef}
    (hnew : mapGet s.internalInstanceToIDMap k = none) (k' : JsRef) (i : Nat)
    (h : mapGet s.internalInstanceToIDMap k' = some i) : (getID s k).1 ≠ i := by
  have hb := hs.1 k' i h
  rw [getID_not_registered hnew]
  simp only
  omega

theorem foldGetIDs_rootIDSet (cs : List Inst) (s : AttachState) :
    (foldGetIDs s cs).rootIDSet = s.rootIDSet := by
  induction cs generalizing s with
  | nil => rfl
  | cons c rest ih =>
    rw [foldGetIDs, List.foldl_cons, ← foldGetIDs, ih, getID_rootIDSet]

theorem foldGetIDs_pending (cs : List Inst) (s : AttachState) :
    (foldGetIDs s cs).pendingOperations = s.pendingOperations := by
  induction cs generalizing s with
  | nil => rfl
  | cons c rest ih =>
    rw [foldGetIDs, List.foldl_cons, ← foldGetIDs, ih, getID_pending]

theorem foldGetIDs_timeoutMap (cs : List Inst) (s : AttachState) :
    (foldGetIDs s cs).rootIDToTimeoutIDMap = s.rootIDToTimeoutIDMap := by
  induction cs generalizing s with
  | nil => rfl
  | cons c rest ih =>
    rw [foldGetIDs, List.foldl_cons, ← foldGetIDs, ih, getID_timeoutMap]

theorem foldGetIDs_good {s : AttachState} (hs : GoodState s) (cs : List Inst) :
    GoodState (foldGetIDs s cs) := by
  induction cs generalizing s with
  | nil => exact hs
  | cons c rest ih =>
    rw [foldGetIDs, List.foldl_cons, ← foldGetIDs]
    exact ih (getID_good hs (some c))

theorem foldGetIDs_mono {s : AttachState} {k : JsRef} {i : Nat}
    (h : mapGet s.internalInstanceToIDMap k = some i) (cs : List Inst) :
    mapGet (foldGetIDs s cs).internalInstanceToIDMap k = some i := by
  induction cs generalizing s with
  | nil => exact h
  | cons c rest ih =>
    rw [foldGetIDs, List.foldl_cons, ← foldGetIDs]
    exact ih (getID_mono h (some c))

theorem recordMountLogState_rootIDSet (host : Host) (s : AttachState) (inst : Inst) :
    (recordMountLogState host s inst).rootIDSet = s.rootIDSet := by
  rw [recordMountLogState, foldGetIDs_rootIDSet, getID_rootIDSet]

theorem recordMountLogState_pending (host : Host) (s : AttachState) (inst : Inst) :
    (recordMountLogState host s inst).pendingOperations = s.pendingOperations := by
  rw [recordMountLogState, foldGetIDs_pending, getID_pending]

theorem recordMountLogState_timeoutMap (host : Host) (s : AttachState) (inst : Inst) :
    (recordMountLogState host s inst).rootIDToTimeoutIDMap = s.rootIDToTimeoutIDMap := by
  rw [recordMountLogState, foldGetIDs_timeoutMap, getID_timeoutMap]

theorem recordMountLogState_good {s : AttachState} (hs : GoodState s)
    (host : Host) (inst : Inst) : GoodState (recordMountLogState host s inst) := by
  exact foldGetIDs_good (getID_good hs (host.hostParent inst)) (host.children inst)

theorem recordMountLogState_mono {s : AttachState} {k : JsRef} {i : Nat}
    (h : mapGet s.internalInstanceToIDMap k = some i) (host : Host) (inst : Inst) :
    mapGet (recordMountLogState host s inst).internalInstanceToIDMap k = some i := by
  exact foldGetIDs_mono (getID_mono h (host.hostParent inst)) (host.children inst)

theorem recordMountLogState_parent_registered (host : Host) (s : AttachState) (inst : Inst) :
    ∃ pid, mapGet (recordMountLogState host s inst).internalInstanceToIDMap
      (host.hostParent inst) = some pid := by
  refine ⟨(getID s (host.hostParent inst)).1, ?_⟩
  exact foldGetIDs_mono (getID_lookup_self s (host.hostParent inst)) (host.children inst)

theorem addOperation_front_pending (s : AttachState) (b : List Nat) :
    (addOperation s b true).pendingOperations = b :: s.pendingOperations := by
  simp [addOperation]

theorem addOperation_back_pending (s : AttachState) (b : List Nat) :
    (addOperation s b).pendingOperations = s.pendingOperations ++ [b] := by
  simp [addOperation]

theorem addOperation_iiMap (s : AttachState) (b : List Nat) (q : Bool) :
    (addOperation s b q).internalInstanceToIDMap = s.internalInstanceToIDMap := by
  cases q <;> simp [addOperation]

theorem addOperation_rootIDSet (s : AttachState) (b : List Nat) (q : Bool) :
    (addOperation s b q).rootIDSet = s.rootIDSet := by
  cases q <;> simp [addOperation]

theorem addOperation_timeoutMap (s : AttachState) (b : List Nat) (q : Bool) :
    (addOperation s b q).rootIDToTimeoutIDMap = s.rootIDToTimeoutIDMap := by
  cases q <;> simp [addOperation]

theorem addOperation_good {s : AttachState} (hs : GoodState s) (b : List Nat) (q : Bool) :
    GoodState (addOperation s b q) := by
  obtain ⟨h1, h2⟩ := hs
  cases q
  · exact ⟨h1, h2⟩
  · exact ⟨h1, h2⟩

/-- Characterisation of `recordMount` on a non-root id: it registers the
instance, the host parent, and the children, and pushes exactly one
Add-Node block (with the instance's id, its `getData` classification, the
host parent's id, and the owner word) onto the front of the queue. -/
theorem recordMount_nonRoot_spec (host : Host) (s : AttachState) (inst : Inst)
    (hnr : s.rootIDSet.contains (mountId s inst) = false) :
    ∃ pid,
      (recordMount host s inst).pendingOperations =
        encodeAddNode (mountId s inst) (getData host inst).type pid
            (ownerIdWord host inst) (getData host inst).displayName (getData host inst).key
          :: s.pendingOperations
      ∧ mapGet (recordMount host s inst).internalInstanceToIDMap
          (host.hostParent inst) = some pid
      ∧ mapGet (recordMount host s inst).internalInstanceToIDMap
          (some inst) = some (mountId s inst) := by
  have hroot1 : (getID s (some inst)).2.rootIDSet = s.rootIDSet := getID_rootIDSet s (some inst)
  have hm : (getID s (some inst)).1 = mountId s inst := rfl
  rw [recordMount]
  simp only [hm, hroot1, hnr, Bool.false_eq_true, if_false]
  set s3 := recordMountLogState host (getID s (some inst)).2 inst with hs3
  refine ⟨(getID s3 (host.hostParent inst)).1, ?_, ?_, ?_⟩
  · rw [addOperation_front_pending]
    have : s3.pendingOperations = s.pendingOperations := by
      rw [hs3, recordMountLogState_pending, getID_pending]
    rw [getID_pending, this]
  · rw [addOperation_iiMap]
    exact getID_lookup_self s3 (host.hostParent inst)
  · rw [addOperation_iiMap]
    have h1 : mapGet (getID s (some inst)).2.internalInstanceToIDMap (some inst)
        = some (mountId s inst) := getID_lookup_self s (some inst)
    have h2 := recordMountLogState_mono h1 host inst
    exact getID_mono (hs3 ▸ h2) (host.hostParent inst)

theorem recordMount_rootIDSet (host : Host) (s : AttachState) (inst : Inst) :
    (recordMount host s inst).rootIDSet = s.rootIDSet := by
  rw [recordMount]
  by_cases h : (getID s (some inst)).2.rootIDSet.contains (getID s (some inst)).1
  · simp only [h, if_true]
    rw [addOperation_rootIDSet, recordMountLogState_rootIDSet, getID_rootIDSet]
  · simp only [h]
    simp only [Bool.false_eq_true, if_false]
    rw [addOperation_rootIDSet, getID_rootIDSet, recordMountLogState_rootIDSet,
      getID_rootIDSet]

theorem recordMount_timeoutMap (host : Host) (s : AttachState) (inst : Inst) :
    (recordMount host s inst).rootIDToTimeoutIDMap = s.rootIDToTimeoutIDMap := by
  rw [recordMount]
  by_cases h : (getID s (some inst)).2.rootIDSet.contains (getID s (some inst)).1
  · simp only [h, if_true]
    rw [addOperation_timeoutMap, recordMountLogState_timeoutMap, getID_timeoutMap]
  · simp only [h]
    simp only [Bool.false_eq_true, if_false]
    rw [addOperation_timeoutMap, getID_timeoutMap, recordMountLogState_timeoutMap,
      getID_timeoutMap]

theorem recordMount_good {s : AttachState} (hs : GoodState s)
    (host : Host) (inst : Inst) : GoodState (recordMount host s inst) := by
  rw [recordMount]
  by_cases h : (getID s (some inst)).2.rootIDSet.contains (getID s (some inst)).1
  · simp only [h, if_true]
    exact addOperation_good
      (recordMountLogState_good (getID_good hs (some inst)) host inst) _ _
  · simp only [h]
    simp only [Bool.false_eq_true, if_false]
    exact addOperation_good
      (getID_good (recordMountLogState_good (getID_good hs (some inst)) host inst) _) _ _

theorem recordMount_mono {s : AttachState} {k : JsRef} {i : Nat}
    (h : mapGet s.internalInstanceToIDMap k = some i) (host : Host) (inst : Inst) :
    mapGet (recordMount host s inst).internalInstanceToIDMap k = some i := by
  rw [recordMount]
  by_cases hb : (getID s (some inst)).2.rootIDSet.contains (getID s (some inst)).1
  · simp only [hb, if_true]
    rw [addOperation_iiMap]
    exact recordMountLogState_mono (getID_mono h (some inst)) host inst
  · simp only [hb]
    simp only [Bool.false_eq_true, if_false]
    rw [addOperation_iiMap]
    exact getID_mono (recordMountLogState_mono (getID_mono h (some inst)) host inst) _

/-- Characterisation of `recordUnmount` on a non-root, unfiltered id: the
Remove block is appended at the back of the queue, and both registry maps
drop the node, so the call succeeds. -/
theorem recordUnmount_nonRoot_spec (host : Host) (s : AttachState) (inst : Inst)
    (hnr : s.rootIDSet.contains (mountId s inst) = false) :
    ∃ s2, recordUnmount host s inst = .ok s2
      ∧ s2.pendingOperations = s.pendingOperations ++ [encodeRemove (mountId s inst)]
      ∧ mapGet s2.internalInstanceToIDMap (some inst) = none
      ∧ mapGet s2.idToInternalInstanceMap (mountId s inst) = none
      ∧ s2.rootIDSet = s.rootIDSet := by
  have hroot1 : (getID s (some inst)).2.rootIDSet = s.rootIDSet := getID_rootIDSet s (some inst)
  have hm : (getID s (some inst)).1 = mountId s inst := rfl
  rw [recordUnmount]
  simp only [hm, hroot1, hnr, Bool.false_eq_true, if_false, shouldFilterNode,
    not_false_eq_true, if_true]
  refine ⟨_, rfl, ?_, ?_, ?_, ?_⟩
  · rw [addOperation_back_pending, getID_pending, getID_pending]
  · exact mapGet_mapDelete_self _ _
  · exact mapGet_mapDelete_self _ _
  · rw [addOperation_rootIDSet, getID_rootIDSet, hroot1]

theorem runMounts_good {s : AttachState} (hs : GoodState s)
    (host : Host) (ns : List Inst) : GoodState (runMounts host s ns) := by
  induction ns generalizing s with
  | nil => exact hs
  | cons n rest ih =>
    rw [runMounts, List.foldl_cons, ← runMounts]
    exact ih (recordMount_good hs host n)

theorem runMounts_rootIDSet (host : Host) (s : AttachState) (ns : List Inst) :
    (runMounts host s ns).rootIDSet = s.rootIDSet := by
  induction ns generalizing s with
  | nil => rfl
  | cons n rest ih =>
    rw [runMounts, List.foldl_cons, ← runMounts, ih, recordMount_rootIDSet]

theorem runMounts_mono {s : AttachState} {k : JsRef} {i : Nat}
    (h : mapGet s.internalInstanceToIDMap k = some i)
    (host : Host) (ns : List Inst) :
    mapGet (runMounts host s ns).internalInstanceToIDMap k = some i := by
  induction ns generalizing s with
  | nil => exact h
  | cons n rest ih =>
    rw [runMounts, List.foldl_cons, ← runMounts]
    exact ih (recordMount_mono h host n)

/-- Structure of the pending buffer after a mount run from a state with no
registered roots and an empty buffer: one Add-Node block per recorded
instance, in reverse recording order (each `recordMount` adds to the start
of the queue), each block built from the ids the final registry assigns to
the instance and its host parent — and all those ids are registered. -/
theorem runMounts_pending (host : Host) (ns : List Inst) (s : AttachState)
    (hs : GoodState s) (hroot : s.rootIDSet = []) :
    (runMounts host s ns).pendingOperations
        = (ns.map (mountBlockIn host (runMounts host s ns))).reverse
            ++ s.pendingOperations
      ∧ ∀ n ∈ ns,
        (mapGet (runMounts host s ns).internalInstanceToIDMap (some n)).isSome
        ∧ (mapGet (runMounts host s ns).internalInstanceToIDMap (host.hostParent n)).isSome := by
  induction ns generalizing s with
  | nil => exact ⟨by simp [runMounts], by simp⟩
  | cons n rest ih =>
    have hnr : s.rootIDSet.contains (mountId s n) = false := by
      rw [hroot]; rfl
    obtain ⟨pid, hpend1, hpar1, hself1⟩ := recordMount_nonRoot_spec host s n hnr
    have hs1 : GoodState (recordMount host s n) := recordMount_good hs host n
    have hroot1 : (recordMount host s n).rootIDSet = [] := by
      rw [recordMount_rootIDSet, hroot]
    obtain ⟨ihpend, ihreg⟩ := ih (recordMount host s n) hs1 hroot1
    have hselfF : mapGet (runMounts host s (n :: rest)).internalInstanceToIDMap (some n)
        = some (mountId s n) := by
      rw [runMounts, List.foldl_cons, ← runMounts]
      exact runMounts_mono hself1 host rest
    have hparF : mapGet (runMounts host s (n :: rest)).internalInstanceToIDMap
        (host.hostParent n) = some pid := by
      rw [runMounts, List.foldl_cons, ← runMounts]
      exact runMounts_mono hpar1 host rest
    constructor
    · rw [runMounts, List.foldl_cons, ← runMounts] at hselfF hparF ⊢
      rw [ihpend, hpend1]
      rw [List.map_cons, List.reverse_cons, List.append_assoc]
      congr 1
      rw [List.singleton_append]
      congr 1
      rw [mountBlockIn, finalId, finalId, hselfF, hparF]
      rfl
    · intro m hm
      rcases List.mem_cons.mp hm with he | hmem
      · subst he
        exact ⟨by rw [hselfF]; rfl, by rw [hparF]; rfl⟩
      · rw [runMounts, List.foldl_cons, ← runMounts]
        exact ihreg m hmem

theorem encodeAddNode_opIdWord (id typ pid oid : Nat)
    (dn k : Option (List Nat)) :
    opIdWord (encodeAddNode id typ pid oid dn k) = w32 id := by
  simp [opIdWord, encodeAddNode]

theorem encodeAddNode_opParentIdWord (id typ pid oid : Nat)
    (dn k : Option (List Nat)) :
    opParentIdWord (encodeAddNode id typ pid oid dn k) = w32 pid := by
  simp [opParentIdWord, encodeAddNode]

theorem w32_eq_of_lt {n : Nat} (h : n < 4294967296) : w32 n = n :=
  Nat.mod_eq_of_lt h

theorem finalId_lt {sF : AttachState} (hG : GoodState sF) {k : JsRef}
    (hk : (mapGet sF.internalInstanceToIDMap k).isSome) :
    finalId sF k < sF.nextUID := by
  cases h : mapGet sF.internalInstanceToIDMap k with
  | none => rw [h] at hk; exact absurd hk (by simp)
  | some i =>
    have := hG.1 k i h
    rw [finalId, h]
    simpa using this

theorem finalId_inj {sF : AttachState} (hG : GoodState sF) {k1 k2 : JsRef}
    (h1 : (mapGet sF.internalInstanceToIDMap k1).isSome)
    (h2 : (mapGet sF.internalInstanceToIDMap k2).isSome)
    (he : finalId sF k1 = finalId sF k2) : k1 = k2 := by
  obtain ⟨i1, hi1⟩ := Option.isSome_iff_exists.mp h1
  obtain ⟨i2, hi2⟩ := Option.isSome_iff_exists.mp h2
  rw [finalId, finalId, hi1, hi2] at he
  simp only [Option.getD_some] at he
  exact hG.2 k1 k2 i1 hi1 (by rw [hi2, he])

theorem runMounts_block_get (host : Host) (s : AttachState) (ns : List Inst)
    (hs : GoodState s) (hroot : s.rootIDSet = []) (hpend : s.pendingOperations = [])
    (a : Fin (runMounts host s ns).pendingOperations.length)
    (hia : ns.length - 1 - (a : Nat) < ns.length) :
    (runMounts host s ns).pendingOperations.get a
      = mountBlockIn host (runMounts host s ns)
          (ns.get ⟨ns.length - 1 - (a : Nat), hia⟩) := by
  obtain ⟨hP, -⟩ := runMounts_pending host ns s hs hroot
  rw [hpend, List.append_nil] at hP
  rw [List.get_eq_getElem]
  simp only [hP, List.getElem_reverse, List.getElem_map, List.length_map,
    List.get_eq_getElem]

theorem flush_timeoutMap (rid : Nat) (s : AttachState) (root : Inst) :
    (flushPendingEvents rid s root).1.rootIDToTimeoutIDMap
      = s.rootIDToTimeoutIDMap := by
  simp only [flushPendingEvents]
  rw [addOperation_timeoutMap, getID_timeoutMap]

theorem countP_zero_mapGet {m : List (Nat × Nat)} {id : Nat}
    (h : m.countP (fun p => decide (p.1 = id)) = 0) : mapGet m id = none := by
  induction m with
  | nil => rfl
  | cons p rest ih =>
    rw [List.countP_cons] at h
    obtain ⟨k, v⟩ := p
    by_cases hp : k = id
    · simp [hp] at h
    · have hr : rest.countP (fun p => decide (p.1 = id)) = 0 := by
        simp only [decide_eq_true_eq] at h
        omega
      have hne : id ≠ k := fun he => hp he.symm
      rw [mapGet, if_neg hne]
      exact ih hr

theorem countP_mapDelete_zero (m : List (Nat × Nat)) (id : Nat) :
    (mapDelete m id).countP (fun p => decide (p.1 = id)) = 0 := by
  induction m with
  | nil => rfl
  | cons p rest ih =>
    obtain ⟨k, v⟩ := p
    by_cases hp : id = k
    · rw [mapDelete, if_pos hp]
      exact ih
    · rw [mapDelete, if_neg hp, List.countP_cons]
      have hne : ¬ (k = id) := fun he => hp he.symm
      simp [hne, ih]

theorem queueFlush_no_timer {s : AttachState} {root : Inst} {id : Nat}
    (hreg : mapGet s.internalInstanceToIDMap (some root) = some id)
    (hnone : mapGet s.rootIDToTimeoutIDMap id = none) :
    queueFlushPendingEvents s root
      = { s with
            rootIDToTimeoutIDMap := (id, s.nextTimeoutID) :: s.rootIDToTimeoutIDMap
            nextTimeoutID := s.nextTimeoutID + 1 } := by
  simp only [queueFlushPendingEvents, getID_registered hreg, hnone]

theorem queueFlush_timer_pending {s : AttachState} {root : Inst} {id : Nat}
    (hreg : mapGet s.internalInstanceToIDMap (some root) = some id)
    (ht : (mapGet s.rootIDToTimeoutIDMap id).isSome = true) :
    queueFlushPendingEvents s root = s := by
  obtain ⟨t, htt⟩ := Option.isSome_iff_exists.mp ht
  simp only [queueFlushPendingEvents, getID_registered hreg, htt]

theorem normBytes_ite (bs : Option (List Nat)) :
    (if (bs.getD []).length = 0 then none else some (bs.getD [])) = normBytes bs := by
  cases bs with
  | none => simp [normBytes]
  | some l => cases l <;> simp [normBytes]

theorem map_w32_self {l : List Nat} (h : ∀ x ∈ l, x < 4294967296) :
    l.map w32 = l := by
  induction l with
  | nil => rfl
  | cons x t ih =>
    rw [List.map_cons, w32_eq_of_lt (h x (List.mem_cons_self x t)),
      ih (fun y hy => h y (List.mem_cons_of_mem x hy))]

theorem decode_encode_addNode (id typ pid oid : Nat) (dn k : Option (List Nat))
    (hid : id < 4294967296) (htyp : typ < 4294967296) (hpid : pid < 4294967296)
    (hoid : oid < 4294967296)
    (hdn : ∀ x ∈ dn.getD [], x < 4294967296) (hkb : ∀ x ∈ k.getD [], x < 4294967296)
    (hdnl : (dn.getD []).length < 4294967296) (hkl : (k.getD []).length < 4294967296) :
    decodeAddNode (encodeAddNode id typ pid oid dn k)
      = some (id, typ, pid, oid, normBytes dn, normBytes k) := by
  have h6 : encodeAddNode id typ pid oid dn k
      = w32 TREE_OPERATION_ADD :: w32 id :: w32 typ :: w32 pid :: w32 oid
        :: w32 (dn.getD []).length
        :: ((dn.getD []).map w32 ++ (w32 (k.getD []).length :: (k.getD []).map w32)) := by
    simp [encodeAddNode]
  rw [h6]
  have hADD : w32 TREE_OPERATION_ADD = TREE_OPERATION_ADD := rfl
  have hnl : w32 (dn.getD []).length = (dn.getD []).length := w32_eq_of_lt hdnl
  have hkl2 : w32 (k.getD []).length = (k.getD []).length := w32_eq_of_lt hkl
  have hmdn : (dn.getD []).map w32 = dn.getD [] := map_w32_self hdn
  have hmk : (k.getD []).map w32 = k.getD [] := map_w32_self hkb
  rw [decodeAddNode, hADD, hnl, hkl2, hmdn, hmk]
  have hlen : (dn.getD []).length ≤ (dn.getD [] ++ ((k.getD []).length :: k.getD [])).length := by
    simp
  rw [if_pos rfl, if_pos hlen]
  have hdrop : (dn.getD [] ++ ((k.getD []).length :: k.getD [])).drop (dn.getD []).length
      = (k.getD []).length :: k.getD [] := by
    rw [List.drop_left]
  have htake : (dn.getD [] ++ ((k.getD []).length :: k.getD [])).take (dn.getD []).length
      = dn.getD [] := by
    rw [List.take_left]
  rw [hdrop]
  dsimp only
  rw [if_pos rfl, htake]
  rw [w32_eq_of_lt hid, w32_eq_of_lt htyp, w32_eq_of_lt hpid, w32_eq_of_lt hoid]
  rw [normBytes_ite, normBytes_ite]

/-- Claim C2 (amended): in the buffer produced by a single mount run in
which every instance is recorded before its host parent (the reconciler's
post-order discipline, children first), for every Add-Node block whose
`parentID` word equals the id word of another block, the parent's block
sits at a strictly earlier position in the pending buffer — the start-of-
queue insertion of `recordMount` reverses the child-first recording order
into a parent-first buffer order. -/
theorem claim2_amended
    (host : Host) (s : AttachState) (ns : List Inst)
    (hs : GoodState s) (hroot : s.rootIDSet = []) (hpend : s.pendingOperations = [])
    (horder : ∀ i j : Fin ns.length,
      host.hostParent (ns.get i) = some (ns.get j) → (i : Nat) < (j : Nat))
    (hbound : (runMounts host s ns).nextUID ≤ 4294967296) :
    ∀ a b : Fin (runMounts host s ns).pendingOperations.length,
      opParentIdWord ((runMounts host s ns).pendingOperations.get a)
          = opIdWord ((runMounts host s ns).pendingOperations.get b) →
      (b : Nat) < (a : Nat) := by
  obtain ⟨hP, hreg⟩ := runMounts_pending host ns s hs hroot
  rw [hpend, List.append_nil] at hP
  intro a b hab
  have hGF : GoodState (runMounts host s ns) := runMounts_good hs host ns
  have hlen : (runMounts host s ns).pendingOperations.length = ns.length := by
    rw [hP, List.length_reverse, List.length_map]
  have ha2 : (a : Nat) < ns.length := hlen ▸ a.isLt
  have hb2 : (b : Nat) < ns.length := hlen ▸ b.isLt
  have hia : ns.length - 1 - (a : Nat) < ns.length := by omega
  have hib : ns.length - 1 - (b : Nat) < ns.length := by omega
  rw [runMounts_block_get host s ns hs hroot hpend a hia,
    runMounts_block_get host s ns hs hroot hpend b hib] at hab
  have hmemA : ns.get ⟨ns.length - 1 - (a : Nat), hia⟩ ∈ ns := List.get_mem ns _ hia
  have hmemB : ns.get ⟨ns.length - 1 - (b : Nat), hib⟩ ∈ ns := List.get_mem ns _ hib
  obtain ⟨-, hparA⟩ := hreg _ hmemA
  obtain ⟨hselfB, -⟩ := hreg _ hmemB
  rw [mountBlockIn, mountBlockIn, encodeAddNode_opParentIdWord,
    encodeAddNode_opIdWord] at hab
  have h1 : finalId (runMounts host s ns)
      (host.hostParent (ns.get ⟨ns.length - 1 - (a : Nat), hia⟩)) < 4294967296 :=
    lt_of_lt_of_le (finalId_lt hGF hparA) hbound
  have h2 : finalId (runMounts host s ns)
      (some (ns.get ⟨ns.length - 1 - (b : Nat), hib⟩)) < 4294967296 :=
    lt_of_lt_of_le (finalId_lt hGF hselfB) hbound
  rw [w32_eq_of_lt h1, w32_eq_of_lt h2] at hab
  have hk := finalId_inj hGF hparA hselfB hab
  have hlt := horder ⟨ns.length - 1 - (a : Nat), hia⟩ ⟨ns.length - 1 - (b : Nat), hib⟩ hk
  simp only at hlt
  omega

/-!
Claims.
-/

/-- Claim C1 is false on the code at a concrete input: instance `0` is
mounted and then unmounted between two flushes, yet the flushed buffer
contains both its Add-Node block (words 2-8, id `1`) and its Remove block
(words 9-10), so operations for the node do reach the wire — there is no
mount/unmount cancellation in `recordMount`/`recordUnmount`.  (The id is
released, as the second conjunct shows.) -/
theorem claim1_counterexample :
    ((recordUnmount hostA (recordMount hostA initialState 0) 0).toOption.map
        (fun s2 => (flushPendingEvents 7 s2 2).2))
      = some ([7, 2] ++ encodeAddNode 1 ElementTypeClass 2 0 none none
          ++ encodeRemove 1)
    ∧ ((recordUnmount hostA (recordMount hostA initialState 0) 0).toOption.map
        (fun s2 => mapGet s2.internalInstanceToIDMap (some 0)))
      = some none := by decide

/-- Claim C1 (amended): a non-root host node mounted and then unmounted
between two consecutive flushes has its identifier released (neither
registry map still contains it), but the pending buffer handed to the
flush contains both the Add-Node block and the Remove block for the node —
no cancellation takes place. -/
theorem claim1_amended (host : Host) (s : AttachState) (inst : Inst)
    (hnr : s.rootIDSet.contains (mountId s inst) = false) :
    ∃ s2 pid,
      recordUnmount host (recordMount host s inst) inst = .ok s2
      ∧ mapGet s2.internalInstanceToIDMap (some inst) = none
      ∧ mapGet s2.idToInternalInstanceMap (mountId s inst) = none
      ∧ encodeAddNode (mountId s inst) (getData host inst).type pid
          (ownerIdWord host inst) (getData host inst).displayName (getData host inst).key
          ∈ s2.pendingOperations
      ∧ encodeRemove (mountId s inst) ∈ s2.pendingOperations := by
  obtain ⟨pid, hpend1, hpar1, hself1⟩ := recordMount_nonRoot_spec host s inst hnr
  have hmid : mountId (recordMount host s inst) inst = mountId s inst := by
    rw [mountId, getID_registered hself1]
  have hnr2 : (recordMount host s inst).rootIDSet.contains
      (mountId (recordMount host s inst) inst) = false := by
    rw [hmid, recordMount_rootIDSet]
    exact hnr
  obtain ⟨s2, hok, hpend2, hselfnone, hidnone, hrootset⟩ :=
    recordUnmount_nonRoot_spec host (recordMount host s inst) inst hnr2
  refine ⟨s2, pid, hok, hselfnone, ?_, ?_, ?_⟩
  · rw [hmid] at hidnone
    exact hidnone
  · rw [hpend2, hpend1]
    exact List.mem_append_left _ (List.mem_cons_self _ _)
  · rw [hpend2, hmid]
    exact List.mem_append_right _ (List.mem_singleton.mpr rfl)

/-- Witness for the amended claim C1 at a concrete input. -/
theorem claim1_amended_witness :
    ∃ s2 pid,
      recordUnmount hostA (recordMount hostA initialState 0) 0 = .ok s2
      ∧ mapGet s2.internalInstanceToIDMap (some 0) = none
      ∧ mapGet s2.idToInternalInstanceMap (mountId initialState 0) = none
      ∧ encodeAddNode (mountId initialState 0) (getData hostA 0).type pid
          (ownerIdWord hostA 0) (getData hostA 0).displayName (getData hostA 0).key
          ∈ s2.pendingOperations
      ∧ encodeRemove (mountId initialState 0) ∈ s2.pendingOperations :=
  claim1_amended hostA initialState 0 (by decide)

/-- Claim C2 is false on the code at a concrete input: instance `0` is
recorded first (one host update mounts it), then instance `1`, whose
`_hostParent` is `0`, is recorded (a second update in the same window).
Both Add operations land in one flushed buffer, but because each
`recordMount` adds its block to the start of the queue, the child's
Add-Node (id `3`, `parentID` word `1`) occupies word positions 2-8 while
its parent's Add-Node (id `1`) only starts at position 9: the parent's Add
does not occur earlier in the buffer. -/
theorem claim2_counterexample :
    (flushPendingEvents 7 (recordMount hostA (recordMount hostA initialState 0) 1) 2).2
        = [7, 2] ++ encodeAddNode 3 ElementTypeClass 1 0 none none
            ++ encodeAddNode 1 ElementTypeClass 2 0 none none
    ∧ opParentIdWord (encodeAddNode 3 ElementTypeClass 1 0 none none)
        = opIdWord (encodeAddNode 1 ElementTypeClass 2 0 none none)
    ∧ opIdWord (encodeAddNode 3 ElementTypeClass 1 0 none none) = 3
    ∧ opIdWord (encodeAddNode 1 ElementTypeClass 2 0 none none) = 1 := by decide

/-- Witness for the amended claim C2 at a concrete input: the child
(instance `1`) is recorded before its host parent (instance `0`); in the
resulting buffer the block at position 1 is the child's Add-Node (its
`parentID` word names the block at position 0), and the theorem places the
parent's block (position 0) strictly earlier. -/
theorem claim2_amended_witness :
    opParentIdWord ((runMounts hostA initialState [1, 0]).pendingOperations.getD 1 [])
        = opIdWord ((runMounts hostA initialState [1, 0]).pendingOperations.getD 0 [])
    ∧ (0 : Nat) < 1 :=
  ⟨by decide,
    claim2_amended hostA initialState [1, 0] goodState_initial rfl rfl
      (by decide) (by decide) ⟨1, by decide⟩ ⟨0, by decide⟩ (by decide)⟩

/-- Claim C3: the recorded Add-Node operation is the word sequence
`[ADD, id, elementType, parentId, ownerId, nameLen, nameBytes…, keyLen,
keyBytes…]` (third conjunct), the `ownerId` word is `0` when the host
reports no owner (second conjunct), and decoding an encoded Add-Node
recovers exactly the tuple supplied, with a zero-length byte sequence
decoding as absent (first conjunct). -/
theorem claim3_addNode_wire (id typ pid oid : Nat) (dn k : Option (List Nat))
    (hid : id < 4294967296) (htyp : typ < 4294967296) (hpid : pid < 4294967296)
    (hoid : oid < 4294967296)
    (hdn : ∀ x ∈ dn.getD [], x < 4294967296) (hkb : ∀ x ∈ k.getD [], x < 4294967296)
    (hdnl : (dn.getD []).length < 4294967296) (hkl : (k.getD []).length < 4294967296) :
    decodeAddNode (encodeAddNode id typ pid oid dn k)
        = some (id, typ, pid, oid, normBytes dn, normBytes k)
    ∧ (∀ (host : Host) (inst : Inst),
        hasOwnerMetadata host inst = false → ownerIdWord host inst = 0)
    ∧ (∀ (host : Host) (s : AttachState) (inst : Inst),
        s.rootIDSet.contains (mountId s inst) = false →
        ∃ pid2, (recordMount host s inst).pendingOperations
          = encodeAddNode (mountId s inst) (getData host inst).type pid2
              (ownerIdWord host inst) (getData host inst).displayName
              (getData host inst).key :: s.pendingOperations) := by
  refine ⟨decode_encode_addNode id typ pid oid dn k hid htyp hpid hoid hdn hkb hdnl hkl,
    ?_, ?_⟩
  · intro host inst _
    rw [ownerIdWord]
    cases hce : host.currentElement inst with
    | none => rfl
    | some el =>
      cases ho : el.owner with
      | none => simp [ho]
      | some o => simp [ho, jsObjectAsUint32]
  · intro host s inst hnr
    obtain ⟨pid2, hp, -, -⟩ := recordMount_nonRoot_spec host s inst hnr
    exact ⟨pid2, hp⟩

/-- Witness for claim C3 at a concrete input (display name `[72, 105]`,
key supplied as the zero-length byte sequence, which decodes as absent). -/
theorem claim3_witness :
    decodeAddNode (encodeAddNode 5 1 3 0 (some [72, 105]) (some []))
        = some (5, 1, 3, 0, normBytes (some [72, 105]), normBytes (some []))
    ∧ (∀ (host : Host) (inst : Inst),
        hasOwnerMetadata host inst = false → ownerIdWord host inst = 0)
    ∧ (∀ (host : Host) (s : AttachState) (inst : Inst),
        s.rootIDSet.contains (mountId s inst) = false →
        ∃ pid2, (recordMount host s inst).pendingOperations
          = encodeAddNode (mountId s inst) (getData host inst).type pid2
              (ownerIdWord host inst) (getData host inst).displayName
              (getData host inst).key :: s.pendingOperations) :=
  claim3_addNode_wire 5 1 3 0 (some [72, 105]) (some []) (by decide) (by decide)
    (by decide) (by decide) (by decide) (by decide) (by decide) (by decide)

/-- Claim C4: the buffer emitted by `flushPendingEvents` is exactly the
two-word batch header `[rendererId, rootId]` prepended at the front of the
accumulated pending operation buffer, and after the flush the pending
operation buffer is empty. -/
theorem claim4_flush_shape (rid : Nat) (s : AttachState) (root : Inst) :
    (flushPendingEvents rid s root).2
        = w32 rid :: w32 (mountId s root) :: s.pendingOperations.flatten
    ∧ (flushPendingEvents rid s root).1.pendingOperations = [] := by
  constructor
  · simp only [flushPendingEvents]
    rw [addOperation_front_pending, List.flatten_cons, getID_pending]
    rfl
  · rfl

/-- Claim C5 (code bug): recording the unmount of an id marked as a root
appends the two-word `[REMOVE, id]` operation — but then the code executes
`isRoot.delete(id)`, where `isRoot` is the boolean returned by
`rootIDSet.has(id)`, so a `TypeError` is thrown; the call does not
complete, the id is never removed from the root set, and the registry
still holds the node at the point of the throw (the intended statement was
evidently `rootIDSet.delete(id)`). -/
theorem claim5_root_unmount_throws (host : Host) (s : AttachState) (inst : Inst)
    (hroot : s.rootIDSet.contains (mountId s inst) = true) :
    ∃ msg s3, recordUnmount host s inst = .error (msg, s3)
      ∧ s3.rootIDSet = s.rootIDSet
      ∧ s3.pendingOperations = s.pendingOperations ++ [encodeRemove (mountId s inst)]
      ∧ mapGet s3.internalInstanceToIDMap (some inst) = some (mountId s inst) := by
  have hroot1 : (getID s (some inst)).2.rootIDSet = s.rootIDSet := getID_rootIDSet s (some inst)
  have hm : (getID s (some inst)).1 = mountId s inst := rfl
  rw [recordUnmount]
  simp only [hm, hroot1, hroot, if_true]
  refine ⟨_, _, rfl, ?_, ?_, ?_⟩
  · rw [addOperation_rootIDSet, getID_rootIDSet, hroot1]
  · rw [addOperation_back_pending, getID_pending, getID_pending]
  · rw [addOperation_iiMap]
    exact getID_mono (getID_lookup_self s (some inst)) _

/-- Witness for claim C5 at a concrete input: unmounting the registered
root instance `2` (id `1`) errors out. -/
theorem claim5_witness :
    ∃ msg s3, recordUnmount hostA rootState 2 = .error (msg, s3)
      ∧ s3.rootIDSet = rootState.rootIDSet
      ∧ s3.pendingOperations
          = rootState.pendingOperations ++ [encodeRemove (mountId rootState 2)]
      ∧ mapGet s3.internalInstanceToIDMap (some 2) = some (mountId rootState 2) :=
  claim5_root_unmount_throws hostA rootState 2 (by decide)

/-- Claim C6: the first `getID` call for a key allocates an id that no
currently-registered key holds (fourth conjunct); every further call with
the same key returns that id without touching the state (first conjunct);
the registry invariant is preserved (second conjunct); and any two
distinct simultaneously-registered keys hold distinct ids (third
conjunct). -/
theorem claim6_id_registry (s : AttachState) (k : JsRef) (hs : GoodState s) :
    getID (getID s k).2 k = ((getID s k).1, (getID s k).2)
    ∧ GoodState (getID s k).2
    ∧ (∀ k1 k2 i1 i2, k1 ≠ k2 →
        mapGet (getID s k).2.internalInstanceToIDMap k1 = some i1 →
        mapGet (getID s k).2.internalInstanceToIDMap k2 = some i2 → i1 ≠ i2)
    ∧ (mapGet s.internalInstanceToIDMap k = none →
        ∀ k2 i, mapGet s.internalInstanceToIDMap k2 = some i → (getID s k).1 ≠ i) := by
  refine ⟨getID_registered (getID_lookup_self s k), getID_good hs k, ?_, ?_⟩
  · intro k1 k2 i1 i2 hne h1 h2 hei
    exact hne ((getID_good hs k).2 k1 k2 i1 h1 (by rw [h2, hei]))
  · intro hnew k2 i h2
    exact getID_fresh hs hnew k2 i h2

/-- Witness for claim C6 at a concrete input (the empty registry and the
key for instance `0`). -/
theorem claim6_witness :
    getID (getID initialState (some 0)).2 (some 0)
        = ((getID initialState (some 0)).1, (getID initialState (some 0)).2)
    ∧ GoodState (getID initialState (some 0)).2
    ∧ (∀ k1 k2 i1 i2, k1 ≠ k2 →
        mapGet (getID initialState (some 0)).2.internalInstanceToIDMap k1 = some i1 →
        mapGet (getID initialState (some 0)).2.internalInstanceToIDMap k2 = some i2 →
        i1 ≠ i2)
    ∧ (mapGet initialState.internalInstanceToIDMap (some 0) = none →
        ∀ k2 i, mapGet initialState.internalInstanceToIDMap k2 = some i →
        (getID initialState (some 0)).1 ≠ i) :=
  claim6_id_registry initialState (some 0) goodState_initial

/-- Claim C7: while a deferred flush is already scheduled for a root's id,
any further call to `queueFlushPendingEvents` for that root changes
nothing — starting from a state with no timer for the id, any positive
number of scheduling requests leaves the state of a single request (first
conjunct), exactly one timer is pending (second conjunct), and once that
timer fires the flush runs and no timer remains (third conjunct). -/
theorem claim7_timer_coalescing (s : AttachState) (root : Inst) (id rid : Nat)
    (hreg : mapGet s.internalInstanceToIDMap (some root) = some id)
    (hzero : timerCount s id = 0) :
    (∀ n : Nat, 1 ≤ n →
      (fun t => queueFlushPendingEvents t root)^[n] s = queueFlushPendingEvents s root)
    ∧ timerCount (queueFlushPendingEvents s root) id = 1
    ∧ timerCount (fireTimeout rid (queueFlushPendingEvents s root) root).1 id = 0 := by
  have hnone : mapGet s.rootIDToTimeoutIDMap id = none := countP_zero_mapGet hzero
  have hq := queueFlush_no_timer hreg hnone
  have hreg1 : mapGet (queueFlushPendingEvents s root).internalInstanceToIDMap (some root)
      = some id := by
    rw [hq]
    exact hreg
  have ht1 : (mapGet (queueFlushPendingEvents s root).rootIDToTimeoutIDMap id).isSome
      = true := by
    rw [hq]
    simp [mapGet]
  have hidem : queueFlushPendingEvents (queueFlushPendingEvents s root) root
      = queueFlushPendingEvents s root := queueFlush_timer_pending hreg1 ht1
  refine ⟨?_, ?_, ?_⟩
  · intro n hn
    induction n with
    | zero => omega
    | succ m ih =>
      by_cases hm : 1 ≤ m
      · rw [Function.iterate_succ_apply', ih hm, hidem]
      · have hm0 : m = 0 := by omega
        subst hm0
        rw [Function.iterate_one]
  · rw [timerCount] at hzero
    rw [hq, timerCount]
    simp [List.countP_cons, hzero]
  · simp only [fireTimeout, getID_registered hreg1]
    rw [timerCount, flush_timeoutMap]
    exact countP_mapDelete_zero _ _

/-- Witness for claim C7 at a concrete input (registered root instance `2`
with id `1`, no timer pending). -/
theorem claim7_witness :
    (∀ n : Nat, 1 ≤ n →
      (fun t => queueFlushPendingEvents t 2)^[n] rootState
        = queueFlushPendingEvents rootState 2)
    ∧ timerCount (queueFlushPendingEvents rootState 2) 1 = 1
    ∧ timerCount (fireTimeout 7 (queueFlushPendingEvents rootState 2) 2).1 1 = 0 :=
  claim7_timer_coalescing rootState 2 1 7 (by decide) (by decide)

/-- Claim C8 is false on the code at a concrete input: writing value `5`
with an empty path into the state of the registered id `1` is not a no-op.
`path.pop()` on the empty array yields `undefined`, the reduce leaves
`parent = obj` (the state object, which is truthy), and
`parent[undefined] = value` stores the value under the key `"undefined"`:
the state object changes. -/
theorem claim8_counterexample :
    (setInState regState envA 1 [] (.vnum 5)).toOption.isSome = true
    ∧ stateOfResult (setInState regState envA 1 [] (.vnum 5)) 0
        = .vobj (.fcons "a" (.vnum 1) (.fcons "undefined" (.vnum 5) .fnil))
    ∧ envA.stateOf 0 = .vobj (.fcons "a" (.vnum 1) .fnil)
    ∧ stateOfResult (setInState regState envA 1 [] (.vnum 5)) 0 ≠ envA.stateOf 0 := by
  decide

/-- Claim C8 (amended): for a registered id, an empty-path write into
state or context is not a no-op when the target container is a (truthy)
object — it stores the value under the key `"undefined"` on that
container; it leaves the container untouched only when the container is
falsy. -/
theorem claim8_amended (s : AttachState) (env : InstEnv) (id : Nat) (v : JsValue)
    (inst : Inst)
    (hlook : mapGet s.idToInternalInstanceMap id = some (some inst)) :
    (∀ fs, env.stateOf inst = .vobj fs →
      ∃ env2, setInState s env id [] v = .ok (env2, [])
        ∧ env2.stateOf inst = .vobj (fs.set "undefined" v)
        ∧ (∀ j, j ≠ inst → env2.stateOf j = env.stateOf j)
        ∧ env2.forced = inst :: env.forced)
    ∧ (∀ gs, env.contextOf inst = .vobj gs →
      ∃ env2, setInContext s env id [] v = .ok (env2, [])
        ∧ env2.contextOf inst = .vobj (gs.set "undefined" v))
    ∧ (truthy (env.stateOf inst) = false →
      ∃ env2, setInState s env id [] v = .ok (env2, [])
        ∧ ∀ j, env2.stateOf j = env.stateOf j) := by
  refine ⟨?_, ?_, ?_⟩
  · intro fs hfs
    refine ⟨⟨fun j => if j = inst then .vobj (fs.set "undefined" v) else env.stateOf j,
      env.contextOf, inst :: env.forced⟩, ?_, by simp, fun j hj => by simp [hj], rfl⟩
    simp [setInState, hlook, setIn, hfs, popLastKey, setInWalk, truthy]
  · intro gs hgs
    refine ⟨⟨env.stateOf,
      fun j => if j = inst then .vobj (gs.set "undefined" v) else env.contextOf j,
      inst :: env.forced⟩, ?_, by simp⟩
    simp [setInContext, hlook, setIn, hgs, popLastKey, setInWalk, truthy]
  · intro htr
    refine ⟨⟨fun j => if j = inst then env.stateOf inst else env.stateOf j,
      env.contextOf, inst :: env.forced⟩, ?_, ?_⟩
    · simp [setInState, hlook, setIn, popLastKey, setInWalk, htr]
    · intro j
      by_cases hj : j = inst <;> simp [hj]

/-- Witness for the amended claim C8 at a concrete input. -/
theorem claim8_amended_witness :
    (∀ fs, envA.stateOf 0 = .vobj fs →
      ∃ env2, setInState regState envA 1 [] (.vnum 5) = .ok (env2, [])
        ∧ env2.stateOf 0 = .vobj (fs.set "undefined" (.vnum 5))
        ∧ (∀ j, j ≠ 0 → env2.stateOf j = envA.stateOf j)
        ∧ env2.forced = 0 :: envA.forced)
    ∧ (∀ gs, envA.contextOf 0 = .vobj gs →
      ∃ env2, setInContext regState envA 1 [] (.vnum 5) = .ok (env2, [])
        ∧ env2.contextOf 0 = .vobj (gs.set "undefined" (.vnum 5)))
    ∧ (truthy (envA.stateOf 0) = false →
      ∃ env2, setInState regState envA 1 [] (.vnum 5) = .ok (env2, [])
        ∧ ∀ j, env2.stateOf j = envA.stateOf j) :=
  claim8_amended regState envA 1 (.vnum 5) 0 (by decide)

/-- Claim C9 is false on the code at a concrete input: on a host renderer
exposing both `Component` and `Reconciler`, `attach` wraps the
`Reconciler` methods, but `cleanup` restores the saved originals onto
`Component.Mixin` (because `renderer.Component` exists), leaving
`Reconciler` wrapped: after cleanup its methods are still the wrappers
`⟨21, 22, 23, 24⟩` instead of the pre-attach `⟨20, 21, 22, 23⟩`. -/
theorem claim9_counterexample :
    cleanedReconciler
        (cleanup (attachWraps Nat.succ rendBoth).1 (attachWraps Nat.succ rendBoth).2)
      = some ⟨21, 22, 23, 24⟩
    ∧ rendBoth.Reconciler = some ⟨20, 21, 22, 23⟩
    ∧ cleanedReconciler
        (cleanup (attachWraps Nat.succ rendBoth).1 (attachWraps Nat.succ rendBoth).2)
      ≠ rendBoth.Reconciler := by decide

/-- Claim C9 (amended): on a host renderer that does not expose
`Component`, attaching and then calling `cleanup` restores every wrapped
entry point (the `Reconciler` methods and the root-render entry point) to
exactly its pre-attach function, and a second `cleanup` call is a
no-op. -/
theorem claim9_amended {α : Type} (wrap : α → α) (r : RendererObj α)
    (hc : r.Component = none) :
    cleanup (attachWraps wrap r).1 (attachWraps wrap r).2 = .ok (r, ⟨none, none, none⟩)
    ∧ cleanup r ⟨none, none, none⟩ = .ok (r, ⟨none, none, none⟩) := by
  obtain ⟨⟨mroot, mrend⟩, rec, comp⟩ := r
  dsimp only at hc
  subst hc
  constructor
  · cases mroot <;> cases mrend <;> cases rec <;>
      simp [attachWraps, cleanup, decorateReconciler]
  · rfl

/-- Witness for the amended claim C9 at a concrete input. -/
theorem claim9_amended_witness :
    cleanup (attachWraps Nat.succ rendSolo).1 (attachWraps Nat.succ rendSolo).2
        = .ok (rendSolo, ⟨none, none, none⟩)
    ∧ cleanup rendSolo ⟨none, none, none⟩ = .ok (rendSolo, ⟨none, none, none⟩) :=
  claim9_amended Nat.succ rendSolo rfl

/-- Claim C10: for a registered id and a non-empty path, `setInState` and
`setInContext` mutate the caller's `path` array in place through
`path.pop()`: after the call (whether or not the write succeeded) the
array is the original without its last element, hence one element
shorter. -/
theorem claim10_path_mutation (s : AttachState) (env : InstEnv) (id : Nat)
    (inst : Inst) (path : List String) (v : JsValue)
    (hlook : mapGet s.idToInternalInstanceMap id = some (some inst))
    (_hne : path ≠ []) :
    resultPath (setInState s env id path v) = path.dropLast
    ∧ (resultPath (setInState s env id path v)).length = path.length - 1
    ∧ resultPath (setInContext s env id path v) = path.dropLast
    ∧ (resultPath (setInContext s env id path v)).length = path.length - 1 := by
  have h1 : resultPath (setInState s env id path v) = path.dropLast := by
    simp only [setInState, hlook, setIn]
    cases setInWalk (env.stateOf inst) path.dropLast (popLastKey path) v <;>
      simp [resultPath]
  have h2 : resultPath (setInContext s env id path v) = path.dropLast := by
    simp only [setInContext, hlook, setIn]
    cases setInWalk (env.contextOf inst) path.dropLast (popLastKey path) v <;>
      simp [resultPath]
  refine ⟨h1, ?_, h2, ?_⟩
  · rw [h1, List.length_dropLast]
  · rw [h2, List.length_dropLast]

/-- Witness for claim C10 at a concrete input. -/
theorem claim10_witness :
    resultPath (setInState regState envA 1 ["x"] (.vnum 3))
        = (["x"] : List String).dropLast
    ∧ (resultPath (setInState regState envA 1 ["x"] (.vnum 3))).length
        = (["x"] : List String).length - 1
    ∧ resultPath (setInContext regState envA 1 ["x"] (.vnum 3))
        = (["x"] : List String).dropLast
    ∧ (resultPath (setInContext regState envA 1 ["x"] (.vnum 3))).length
        = (["x"] : List String).length - 1 :=
  claim10_path_mutation regState envA 1 0 ["x"] (.vnum 3) (by decide) (by decide)
